import Mathlib

/-!
Verification of the CUTLASS sm90 TMA warp-specialized epilogue visitor tree
(`include/cutlass/epilogue/fusion/sm90_visitor_tma_warpspecialized.hpp`).

The host-side interface of a fusion-tree node (`get_workspace_size`,
`to_underlying_arguments`, `can_implement`, `initialize_workspace`) is embedded
shallowly: child operations are abstract records of functions, workspace
pointers are natural-number byte addresses with `0` playing the role of the
null pointer, and the variadic composite `Sm90VisitorImplBase<Ops...>` becomes
recursion over a list of (operation, argument) pairs.  The fixed-arity
specializations `Sm90VisitorImplBase<Op0,Op1>`, `<Op0,Op1,Op2>` and
`<Op0,Op1,Op2,Op3>` are embedded separately, line for line, because their
workspace arithmetic differs from the generic form.
-/

namespace CutlassFusion

/-- Host-side status codes (`cutlass::Status`), restricted to the
constructors the visitor composition logic distinguishes. -/
inductive Status where
  | kSuccess
  | kErrorInternal
  | kErrorWorkspaceNull
  | kErrorNotSupported
  deriving DecidableEq, Repr

/-- Modelled from the spec: the fixed workspace alignment boundary, "a small
power-of-two byte count" (`MinWorkspaceAlignment` from `cutlass/workspace.h`,
which is not part of the extracted sources; the repository uses 16 bytes). -/
def MinWorkspaceAlignment : Nat := 16

/-- Modelled from the spec: round a byte count up to the next multiple of the
fixed alignment (`cutlass::round_nearest`, from the headers outside the
extracted sources; the spec describes it as "rounded up to a fixed
alignment"). -/
def round_nearest (a b : Nat) : Nat := ((a + b - 1) / b) * b

/-- The static host-side interface that every fusion-tree operation `Op`
exposes to the composite visitors: workspace sizing, argument resolution
against a workspace pointer, feasibility, and workspace initialization.
Workspace pointers are byte addresses (`0` = `nullptr`). -/
structure FusionOpHost (PS A P : Type) where
  get_workspace_size : PS → A → Nat
  to_underlying_arguments : PS → A → Nat → P
  can_implement : PS → A → Bool
  initialize_workspace : PS → A → Nat → Status

namespace Sm90VisitorImplBase

variable {PS A P : Type}

/-- `Sm90VisitorImplBase<Ops...>::get_workspace_size`: each op's workspace
requirement is rounded up to `MinWorkspaceAlignment` and the rounded sizes are
left-folded into a sum starting from `0`. -/
def get_workspace_size (ps : PS) (pairs : List (FusionOpHost PS A P × A)) : Nat :=
  pairs.foldl
    (fun acc oa => acc + round_nearest (oa.1.get_workspace_size ps oa.2) MinWorkspaceAlignment)
    0

/-- `Sm90VisitorImplBase<Ops...>::to_underlying_arguments`: resolve each op's
arguments against the running workspace cursor; the cursor starts at the
buffer base and, whenever it is non-null, advances past the op's workspace
size rounded up to `MinWorkspaceAlignment`. -/
def to_underlying_arguments (ps : PS) :
    List (FusionOpHost PS A P × A) → Nat → List P
  | [], _ => []
  | oa :: rest, op_workspace =>
    oa.1.to_underlying_arguments ps oa.2 op_workspace ::
      to_underlying_arguments ps rest
        (if op_workspace ≠ 0 then
          op_workspace +
            round_nearest (oa.1.get_workspace_size ps oa.2) MinWorkspaceAlignment
        else op_workspace)

/-- `Sm90VisitorImplBase<Ops...>::can_implement`: fold
`(true && ... && implementable)` over the per-op feasibility checks. -/
def can_implement (ps : PS) (pairs : List (FusionOpHost PS A P × A)) : Bool :=
  pairs.foldl (fun acc oa => acc && oa.1.can_implement ps oa.2) true

/-- Instrumented recursion of `Sm90VisitorImplBase<Ops...>::initialize_workspace`:
once `status` is no longer `kSuccess` the remaining ops are skipped (the C++
lambda returns the stored status without touching the op or the cursor);
otherwise the op is invoked on the current cursor, the cursor advances by the
rounded workspace size when non-null, and the call is recorded in the returned
trace as (op index, workspace pointer passed). -/
def initialize_workspace_go (ps : PS) :
    List (FusionOpHost PS A P × A) → Nat → Status → Nat → Status × List (Nat × Nat)
  | [], _, status, _ => (status, [])
  | oa :: rest, op_workspace, status, i =>
    if status ≠ Status.kSuccess then
      initialize_workspace_go ps rest op_workspace status (i + 1)
    else
      let s := oa.1.initialize_workspace ps oa.2 op_workspace
      let ws' :=
        if op_workspace ≠ 0 then
          op_workspace +
            round_nearest (oa.1.get_workspace_size ps oa.2) MinWorkspaceAlignment
        else op_workspace
      let r := initialize_workspace_go ps rest ws' s (i + 1)
      (r.1, (i, op_workspace) :: r.2)

/-- `Sm90VisitorImplBase<Ops...>::initialize_workspace` together with the
trace of child initializations it performs. -/
def initialize_workspace_run (ps : PS) (pairs : List (FusionOpHost PS A P × A))
    (workspace : Nat) : Status × List (Nat × Nat) :=
  initialize_workspace_go ps pairs workspace Status.kSuccess 0

/-- The status result of `Sm90VisitorImplBase<Ops...>::initialize_workspace`. -/
def initialize_workspace (ps : PS) (pairs : List (FusionOpHost PS A P × A))
    (workspace : Nat) : Status :=
  (initialize_workspace_run ps pairs workspace).1

/-- Cumulative workspace offsets, one per child, produced by rounding each
child's workspace size up to the alignment and accumulating from `acc`. -/
def offsets (ps : PS) : List (FusionOpHost PS A P × A) → Nat → List Nat
  | [], _ => []
  | oa :: rest, acc =>
    acc :: offsets ps rest
      (acc + round_nearest (oa.1.get_workspace_size ps oa.2) MinWorkspaceAlignment)

/-- Apply each child's `to_underlying_arguments` to the matching pointer of a
pointer list (used to characterize which pointer each child receives). -/
def apply_at (ps : PS) : List (FusionOpHost PS A P × A) → List Nat → List P
  | [], _ => []
  | _ :: _, [] => []
  | oa :: rest, ptr :: ptrs =>
    oa.1.to_underlying_arguments ps oa.2 ptr :: apply_at ps rest ptrs

/-- Trace of the (index, pointer) calls all children would receive if every
initialization succeeded: the same cursor arithmetic as the initialization
recursion. -/
def trace_all (ps : PS) : List (FusionOpHost PS A P × A) → Nat → Nat → List (Nat × Nat)
  | [], _, _ => []
  | oa :: rest, ws, i =>
    (i, ws) :: trace_all ps rest
      (if ws ≠ 0 then
        ws + round_nearest (oa.1.get_workspace_size ps oa.2) MinWorkspaceAlignment
      else ws)
      (i + 1)

/-- The status each child returns when invoked at its own cumulative pointer. -/
def status_seq (ps : PS) : List (FusionOpHost PS A P × A) → Nat → List Status
  | [], _ => []
  | oa :: rest, ws =>
    oa.1.initialize_workspace ps oa.2 ws ::
      status_seq ps rest
        (if ws ≠ 0 then
          ws + round_nearest (oa.1.get_workspace_size ps oa.2) MinWorkspaceAlignment
        else ws)

/-- The unrounded workspace sizes of the children, in declared order. -/
def sizes (ps : PS) (pairs : List (FusionOpHost PS A P × A)) : List Nat :=
  pairs.map (fun oa => oa.1.get_workspace_size ps oa.2)

end Sm90VisitorImplBase

/-- Host arguments of the `Sm90VisitorImplBase<Op0,Op1>` specialization. -/
structure Arguments2 (A0 A1 : Type) where
  op_0 : A0
  op_1 : A1

/-- Host arguments of the `Sm90VisitorImplBase<Op0,Op1,Op2>` specialization. -/
structure Arguments3 (A0 A1 A2 : Type) where
  op_0 : A0
  op_1 : A1
  op_2 : A2

/-- Host arguments of the `Sm90VisitorImplBase<Op0,Op1,Op2,Op3>` specialization. -/
structure Arguments4 (A0 A1 A2 A3 : Type) where
  op_0 : A0
  op_1 : A1
  op_2 : A2
  op_3 : A3

/- The two-operand base specialization `Sm90VisitorImplBase<Op0, Op1>`. -/
namespace Sm90VisitorImplBase2

variable {PS A0 P0 A1 P1 : Type}

/-- `Sm90VisitorImplBase<Op0,Op1>::to_underlying_arguments`: `op_0` receives the
buffer base and `op_1` receives the base advanced by `op_0`'s workspace size
(the size is not rounded here, exactly as in the source). -/
def to_underlying_arguments (Op0 : FusionOpHost PS A0 P0) (Op1 : FusionOpHost PS A1 P1)
    (ps : PS) (args : Arguments2 A0 A1) (workspace : Nat) : P0 × P1 :=
  let op_0_workspace_size := Op0.get_workspace_size ps args.op_0
  let op_0_workspace := workspace
  let op_1_workspace := op_0_workspace + op_0_workspace_size
  (Op0.to_underlying_arguments ps args.op_0 op_0_workspace,
   Op1.to_underlying_arguments ps args.op_1 op_1_workspace)

/-- `Sm90VisitorImplBase<Op0,Op1>::can_implement`. -/
def can_implement (Op0 : FusionOpHost PS A0 P0) (Op1 : FusionOpHost PS A1 P1)
    (ps : PS) (args : Arguments2 A0 A1) : Bool :=
  Op0.can_implement ps args.op_0 && Op1.can_implement ps args.op_1

/-- `Sm90VisitorImplBase<Op0,Op1>::get_workspace_size`: the running byte count
is rounded up to `MinWorkspaceAlignment` after adding each op's size. -/
def get_workspace_size (Op0 : FusionOpHost PS A0 P0) (Op1 : FusionOpHost PS A1 P1)
    (ps : PS) (args : Arguments2 A0 A1) : Nat :=
  let workspace_size_0 := 0 + Op0.get_workspace_size ps args.op_0
  let workspace_size_1 := round_nearest workspace_size_0 MinWorkspaceAlignment
  let workspace_size_2 := workspace_size_1 + Op1.get_workspace_size ps args.op_1
  round_nearest workspace_size_2 MinWorkspaceAlignment

/-- `Sm90VisitorImplBase<Op0,Op1>::initialize_workspace`, instrumented with the
trace of (op index, workspace pointer) calls.  The running offset is advanced
by each op's workspace size and then rounded up to `MinWorkspaceAlignment`;
the chain aborts at the first non-success status. -/
def initialize_workspace_run (Op0 : FusionOpHost PS A0 P0) (Op1 : FusionOpHost PS A1 P1)
    (ps : PS) (args : Arguments2 A0 A1) (workspace : Nat) : Status × List (Nat × Nat) :=
  let workspace_offset_0 : Nat := 0
  let status_0 := Op0.initialize_workspace ps args.op_0 (workspace + workspace_offset_0)
  let workspace_offset_1 :=
    round_nearest (workspace_offset_0 + Op0.get_workspace_size ps args.op_0)
      MinWorkspaceAlignment
  if status_0 ≠ Status.kSuccess then
    (status_0, [(0, workspace + workspace_offset_0)])
  else
    let status_1 := Op1.initialize_workspace ps args.op_1 (workspace + workspace_offset_1)
    (status_1, [(0, workspace + workspace_offset_0), (1, workspace + workspace_offset_1)])

/-- The status result of `Sm90VisitorImplBase<Op0,Op1>::initialize_workspace`. -/
def initialize_workspace (Op0 : FusionOpHost PS A0 P0) (Op1 : FusionOpHost PS A1 P1)
    (ps : PS) (args : Arguments2 A0 A1) (workspace : Nat) : Status :=
  (initialize_workspace_run Op0 Op1 ps args workspace).1

end Sm90VisitorImplBase2

/- The three-operand base specialization `Sm90VisitorImplBase<Op0, Op1, Op2>`. -/
namespace Sm90VisitorImplBase3

variable {PS A0 P0 A1 P1 A2 P2 : Type}

/-- `Sm90VisitorImplBase<Op0,Op1,Op2>::to_underlying_arguments`: cumulative
unrounded workspace offsets, exactly as in the source. -/
def to_underlying_arguments (Op0 : FusionOpHost PS A0 P0) (Op1 : FusionOpHost PS A1 P1)
    (Op2 : FusionOpHost PS A2 P2) (ps : PS) (args : Arguments3 A0 A1 A2)
    (workspace : Nat) : P0 × P1 × P2 :=
  let op_0_workspace_size := Op0.get_workspace_size ps args.op_0
  let op_1_workspace_size := Op1.get_workspace_size ps args.op_1
  let op_0_workspace := workspace
  let op_1_workspace := op_0_workspace + op_0_workspace_size
  let op_2_workspace := op_1_workspace + op_1_workspace_size
  (Op0.to_underlying_arguments ps args.op_0 op_0_workspace,
   Op1.to_underlying_arguments ps args.op_1 op_1_workspace,
   Op2.to_underlying_arguments ps args.op_2 op_2_workspace)

/-- `Sm90VisitorImplBase<Op0,Op1,Op2>::can_implement`. -/
def can_implement (Op0 : FusionOpHost PS A0 P0) (Op1 : FusionOpHost PS A1 P1)
    (Op2 : FusionOpHost PS A2 P2) (ps : PS) (args : Arguments3 A0 A1 A2) : Bool :=
  Op0.can_implement ps args.op_0 && Op1.can_implement ps args.op_1 &&
    Op2.can_implement ps args.op_2

/-- `Sm90VisitorImplBase<Op0,Op1,Op2>::get_workspace_size`. -/
def get_workspace_size (Op0 : FusionOpHost PS A0 P0) (Op1 : FusionOpHost PS A1 P1)
    (Op2 : FusionOpHost PS A2 P2) (ps : PS) (args : Arguments3 A0 A1 A2) : Nat :=
  let s0 := round_nearest (0 + Op0.get_workspace_size ps args.op_0) MinWorkspaceAlignment
  let s1 := round_nearest (s0 + Op1.get_workspace_size ps args.op_1) MinWorkspaceAlignment
  round_nearest (s1 + Op2.get_workspace_size ps args.op_2) MinWorkspaceAlignment

/-- `Sm90VisitorImplBase<Op0,Op1,Op2>::initialize_workspace`, instrumented with
the trace of (op index, workspace pointer) calls. -/
def initialize_workspace_run (Op0 : FusionOpHost PS A0 P0) (Op1 : FusionOpHost PS A1 P1)
    (Op2 : FusionOpHost PS A2 P2) (ps : PS) (args : Arguments3 A0 A1 A2)
    (workspace : Nat) : Status × List (Nat × Nat) :=
  let off_0 : Nat := 0
  let status_0 := Op0.initialize_workspace ps args.op_0 (workspace + off_0)
  let off_1 :=
    round_nearest (off_0 + Op0.get_workspace_size ps args.op_0) MinWorkspaceAlignment
  if status_0 ≠ Status.kSuccess then
    (status_0, [(0, workspace + off_0)])
  else
    let status_1 := Op1.initialize_workspace ps args.op_1 (workspace + off_1)
    let off_2 :=
      round_nearest (off_1 + Op1.get_workspace_size ps args.op_1) MinWorkspaceAlignment
    if status_1 ≠ Status.kSuccess then
      (status_1, [(0, workspace + off_0), (1, workspace + off_1)])
    else
      let status_2 := Op2.initialize_workspace ps args.op_2 (workspace + off_2)
      (status_2, [(0, workspace + off_0), (1, workspace + off_1), (2, workspace + off_2)])

/-- The status result of `Sm90VisitorImplBase<Op0,Op1,Op2>::initialize_workspace`. -/
def initialize_workspace (Op0 : FusionOpHost PS A0 P0) (Op1 : FusionOpHost PS A1 P1)
    (Op2 : FusionOpHost PS A2 P2) (ps : PS) (args : Arguments3 A0 A1 A2)
    (workspace : Nat) : Status :=
  (initialize_workspace_run Op0 Op1 Op2 ps args workspace).1

end Sm90VisitorImplBase3

/- The four-operand base specialization `Sm90VisitorImplBase<Op0, Op1, Op2, Op3>`
(the members the claims exercise). -/
namespace Sm90VisitorImplBase4

variable {PS A0 P0 A1 P1 A2 P2 A3 P3 : Type}

/-- `Sm90VisitorImplBase<Op0,Op1,Op2,Op3>::can_implement`. -/
def can_implement (Op0 : FusionOpHost PS A0 P0) (Op1 : FusionOpHost PS A1 P1)
    (Op2 : FusionOpHost PS A2 P2) (Op3 : FusionOpHost PS A3 P3)
    (ps : PS) (args : Arguments4 A0 A1 A2 A3) : Bool :=
  Op0.can_implement ps args.op_0 && Op1.can_implement ps args.op_1 &&
    Op2.can_implement ps args.op_2 && Op3.can_implement ps args.op_3

/-- `Sm90VisitorImplBase<Op0,Op1,Op2,Op3>::to_underlying_arguments`: cumulative
unrounded workspace offsets, exactly as in the source. -/
def to_underlying_arguments (Op0 : FusionOpHost PS A0 P0) (Op1 : FusionOpHost PS A1 P1)
    (Op2 : FusionOpHost PS A2 P2) (Op3 : FusionOpHost PS A3 P3)
    (ps : PS) (args : Arguments4 A0 A1 A2 A3) (workspace : Nat) : P0 × P1 × P2 × P3 :=
  let op_0_workspace_size := Op0.get_workspace_size ps args.op_0
  let op_1_workspace_size := Op1.get_workspace_size ps args.op_1
  let op_2_workspace_size := Op2.get_workspace_size ps args.op_2
  let op_0_workspace := workspace
  let op_1_workspace := op_0_workspace + op_0_workspace_size
  let op_2_workspace := op_1_workspace + op_1_workspace_size
  let op_3_workspace := op_2_workspace + op_2_workspace_size
  (Op0.to_underlying_arguments ps args.op_0 op_0_workspace,
   Op1.to_underlying_arguments ps args.op_1 op_1_workspace,
   Op2.to_underlying_arguments ps args.op_2 op_2_workspace,
   Op3.to_underlying_arguments ps args.op_3 op_3_workspace)

end Sm90VisitorImplBase4

/-- The device-side queries a constructed fusion-tree op exposes to the
composite `Sm90VisitorImpl` (each op instance answers two boolean queries). -/
structure FusionOpDevice where
  is_producer_load_needed : Bool
  is_C_load_needed : Bool

namespace Sm90VisitorImpl

/-- `Sm90VisitorImpl<Ops...>::is_producer_load_needed`: the fold
`(false || ... || op.is_producer_load_needed())` over the ops tuple. -/
def is_producer_load_needed (ops : List FusionOpDevice) : Bool :=
  ops.foldl (fun acc op => acc || op.is_producer_load_needed) false

/-- `Sm90VisitorImpl<Ops...>::is_C_load_needed`: the fold
`(false || ... || op.is_C_load_needed())` over the ops tuple. -/
def is_C_load_needed (ops : List FusionOpDevice) : Bool :=
  ops.foldl (fun acc op => acc || op.is_C_load_needed) false

end Sm90VisitorImpl

/-
Device-side visit composition.  A `visit` callback of a constructed callbacks
object may read and mutate its node's captured state (register/shared-memory
tensors), so callbacks are embedded as state transformers over an abstract
state `σ`, threaded in tuple order exactly as the `tapply` expansions of the
source sequence the per-child calls.
-/

/-- The `visit` entry point of one child callbacks object:
`visit(frg_acc, epi_v, epi_m, epi_n)` (nullary child: loads, nested trees),
threading the callback state. -/
def VisitCb (Acc Frag σ : Type) : Type :=
  Acc → Int → Int → Int → σ → Frag × σ

namespace Sm90TreeVisitor

variable {Acc Frag σ : Type}

/-- The transform phase of `cute::detail::tapply` inside
`Sm90TreeVisitor::ConsumerStoreCallbacks::visit`: run the child callbacks'
visits in declared order on the accumulator fragment, collecting their output
fragments. -/
def visitChildren (frg_acc : Acc) (epi_v epi_m epi_n : Int) :
    List (VisitCb Acc Frag σ) → σ → List Frag × σ
  | [], s => ([], s)
  | c :: cs, s =>
    let r := c frg_acc epi_v epi_m epi_n s
    let rest := visitChildren frg_acc epi_v epi_m epi_n cs r.2
    (r.1 :: rest.1, rest.2)

/-- `Sm90TreeVisitor::ConsumerStoreCallbacks::visit`: the child ops are
visited first (each nullary, on the accumulator fragment, in declared order),
then the node op's visit is applied to the accumulator fragment together with
the children's output fragments. -/
def visit (children : List (VisitCb Acc Frag σ))
    (node : Acc → Int → Int → Int → List Frag → σ → Frag × σ)
    (frg_acc : Acc) (epi_v epi_m epi_n : Int) (s : σ) : Frag × σ :=
  let r := visitChildren frg_acc epi_v epi_m epi_n children s
  node frg_acc epi_v epi_m epi_n r.1 r.2

end Sm90TreeVisitor

/-- Observable call events of a tree visit, used to state evaluation order. -/
inductive TreeEv (Acc Frag : Type) where
  | childCall (idx : Nat) (arg : Acc) (out : Frag)
  | nodeCall (arg : Acc) (inputs : List Frag) (out : Frag)

/-- A pure child visit function lifted to a callback that logs its call. -/
def loggedChild {Acc Frag : Type} (i : Nat) (g : Acc → Int → Int → Int → Frag) :
    VisitCb Acc Frag (List (TreeEv Acc Frag)) :=
  fun acc v m n s => (g acc v m n, s ++ [TreeEv.childCall i acc (g acc v m n)])

/-- A pure node visit function lifted to a logging node callback. -/
def loggedNode {Acc Frag : Type} (h : Acc → Int → Int → Int → List Frag → Frag) :
    Acc → Int → Int → Int → List Frag → List (TreeEv Acc Frag) →
      Frag × List (TreeEv Acc Frag) :=
  fun acc v m n inputs s =>
    (h acc v m n inputs, s ++ [TreeEv.nodeCall acc inputs (h acc v m n inputs)])

namespace Sm90SplitTreeVisitor

variable {Acc Frag σ : Type}

/-- The aux-output-tree loop inside
`Sm90SplitTreeVisitor::ConsumerStoreCallbacks::visit`: each aux tree's visit
runs on the input tree's fragment; its result is discarded. -/
def visitAuxOutTrees (frg_input : Frag) (epi_v epi_m epi_n : Int) :
    List (VisitCb Frag Frag σ) → σ → σ
  | [], s => s
  | c :: cs, s =>
    visitAuxOutTrees frg_input epi_v epi_m epi_n cs (c frg_input epi_v epi_m epi_n s).2

/-- `Sm90SplitTreeVisitor::ConsumerStoreCallbacks::visit`: the input tree is
visited once on the accumulator fragment, its output fragment is fanned out
unmodified to every aux output tree and then to the designated output tree,
whose result is returned. -/
def visit (inputTree : VisitCb Acc Frag σ)
    (auxOutTrees : List (VisitCb Frag Frag σ)) (outputTree : VisitCb Frag Frag σ)
    (frg_acc : Acc) (epi_v epi_m epi_n : Int) (s : σ) : Frag × σ :=
  let r := inputTree frg_acc epi_v epi_m epi_n s
  let s' := visitAuxOutTrees r.1 epi_v epi_m epi_n auxOutTrees r.2
  outputTree r.1 epi_v epi_m epi_n s'

end Sm90SplitTreeVisitor

/-- Observable call events of a split-tree visit. -/
inductive SplitEv (Acc Frag : Type) where
  | inputCall (arg : Acc) (out : Frag)
  | auxCall (idx : Nat) (arg : Frag) (out : Frag)
  | mainCall (arg : Frag) (out : Frag)

/-- A pure input-tree visit function lifted to a logging callback. -/
def loggedInputTree {Acc Frag : Type} (g : Acc → Int → Int → Int → Frag) :
    VisitCb Acc Frag (List (SplitEv Acc Frag)) :=
  fun acc v m n s => (g acc v m n, s ++ [SplitEv.inputCall acc (g acc v m n)])

/-- A pure aux-output-tree visit function lifted to a logging callback. -/
def loggedAuxTree {Acc Frag : Type} (i : Nat) (g : Frag → Int → Int → Int → Frag) :
    VisitCb Frag Frag (List (SplitEv Acc Frag)) :=
  fun f v m n s => (g f v m n, s ++ [SplitEv.auxCall i f (g f v m n)])

/-- A pure output-tree visit function lifted to a logging callback. -/
def loggedMainTree {Acc Frag : Type} (g : Frag → Int → Int → Int → Frag) :
    VisitCb Frag Frag (List (SplitEv Acc Frag)) :=
  fun f v m n s => (g f v m n, s ++ [SplitEv.mainCall f (g f v m n)])

/-- One non-final op of a topological visitor: its visit (on the accumulator
fragment and the input fragments selected by its edge sequence) together with
the `NumericArrayConverter` to the shared `ElementCompute` fragment type that
the source applies to the visit's output before storing it. -/
structure TopoOp (Acc CFrag RFrag : Type) where
  visit : Acc → Int → Int → Int → List CFrag → RFrag
  convert_output : RFrag → CFrag

namespace Sm90TopologicalVisitor

variable {Acc CFrag RFrag OFrag : Type}

/-- The transform phase of `Sm90TopologicalVisitor::ConsumerStoreCallbacks::visit`:
fold over the first R-1 (edge sequence, op) pairs in topological order,
overwriting position `i` of the compute tuple with the op's converted output;
the op's inputs are the current tuple entries selected by its edge sequence. -/
def visitFold (frg_acc : Acc) (epi_v epi_m epi_n : Int) (dflt : CFrag) :
    List (List Nat × TopoOp Acc CFrag RFrag) → List CFrag → Nat → List CFrag
  | [], frg_compute_tuple, _ => frg_compute_tuple
  | eo :: rest, frg_compute_tuple, i =>
    let frg_inputs := eo.1.map (fun j => frg_compute_tuple.getD j dflt)
    let frg_output :=
      eo.2.convert_output (eo.2.visit frg_acc epi_v epi_m epi_n frg_inputs)
    visitFold frg_acc epi_v epi_m epi_n dflt rest
      (frg_compute_tuple.set i frg_output) (i + 1)

/-- `Sm90TopologicalVisitor::ConsumerStoreCallbacks::visit`: the compute tuple
starts as R-1 default-initialized `ElementCompute` fragments, the first R-1
ops are visited in topological order by `visitFold`, and the final op's visit
is applied to the tuple entries selected by the last edge sequence; its result
is returned unconverted. -/
def visit (edgeOps : List (List Nat × TopoOp Acc CFrag RFrag)) (edgeLast : List Nat)
    (node : Acc → Int → Int → Int → List CFrag → OFrag)
    (dflt : CFrag) (frg_acc : Acc) (epi_v epi_m epi_n : Int) : OFrag :=
  let frg_compute_tuple := List.replicate edgeOps.length dflt
  let final := visitFold frg_acc epi_v epi_m epi_n dflt edgeOps frg_compute_tuple 0
  node frg_acc epi_v epi_m epi_n (edgeLast.map (fun j => final.getD j dflt))

/-- Left-to-right valuation of the intermediate compute fragments: each op in
topological order contributes the conversion of its visit applied to the
previously computed outputs selected by its edge sequence. -/
def topoVals (frg_acc : Acc) (epi_v epi_m epi_n : Int) (dflt : CFrag)
    (edgeOps : List (List Nat × TopoOp Acc CFrag RFrag)) : List CFrag :=
  edgeOps.foldl
    (fun prev eo =>
      prev ++ [eo.2.convert_output
        (eo.2.visit frg_acc epi_v epi_m epi_n
          (eo.1.map (fun j => prev.getD j dflt)))])
    []

end Sm90TopologicalVisitor

/-- Fixture op for concrete instances: fixed workspace size, resolves its
params to the workspace pointer it is handed, fixed initialization status. -/
def testOp (sz : Nat) (st : Status) : FusionOpHost Unit Unit Nat where
  get_workspace_size := fun _ _ => sz
  to_underlying_arguments := fun _ _ p => p
  can_implement := fun _ _ => true
  initialize_workspace := fun _ _ _ => st

/-- Fixture op whose resolved params do not depend on the workspace pointer. -/
def pureOp (sz v : Nat) : FusionOpHost Unit Unit Nat where
  get_workspace_size := fun _ _ => sz
  to_underlying_arguments := fun _ _ _ => v
  can_implement := fun _ _ => true
  initialize_workspace := fun _ _ _ => Status.kSuccess

/-
Arithmetic facts about the alignment rounding, and generic fold lemmas.
-/

theorem le_round_nearest_align (a : Nat) : a ≤ round_nearest a MinWorkspaceAlignment := by
  unfold round_nearest MinWorkspaceAlignment
  omega

theorem round_nearest_align_add (a b : Nat) :
    round_nearest (round_nearest a MinWorkspaceAlignment + b) MinWorkspaceAlignment =
      round_nearest a MinWorkspaceAlignment + round_nearest b MinWorkspaceAlignment := by
  unfold round_nearest MinWorkspaceAlignment
  omega

theorem foldl_and_eq {α : Type} (f : α → Bool) (l : List α) (b : Bool) :
    l.foldl (fun acc x => acc && f x) b = (b && l.all f) := by
  induction l generalizing b with
  | nil => simp
  | cons x xs ih => simp [List.foldl_cons, ih, Bool.and_assoc]

theorem foldl_or_eq {α : Type} (f : α → Bool) (l : List α) (b : Bool) :
    l.foldl (fun acc x => acc || f x) b = (b || l.any f) := by
  induction l generalizing b with
  | nil => simp
  | cons x xs ih => simp [List.foldl_cons, ih, Bool.or_assoc]

namespace Sm90VisitorImplBase

variable {PS A P : Type}

theorem foldl_add_init (g : FusionOpHost PS A P × A → Nat)
    (l : List (FusionOpHost PS A P × A)) (a : Nat) :
    l.foldl (fun acc x => acc + g x) a = a + l.foldl (fun acc x => acc + g x) 0 := by
  induction l generalizing a with
  | nil => simp
  | cons x xs ih =>
    rw [List.foldl_cons, List.foldl_cons, ih, ih (0 + g x)]
    omega

theorem get_workspace_size_cons (ps : PS) (oa : FusionOpHost PS A P × A)
    (rest : List (FusionOpHost PS A P × A)) :
    get_workspace_size ps (oa :: rest) =
      round_nearest (oa.1.get_workspace_size ps oa.2) MinWorkspaceAlignment +
        get_workspace_size ps rest := by
  rw [get_workspace_size, get_workspace_size, List.foldl_cons, foldl_add_init]
  omega

/-- In the generic variadic form, `to_underlying_arguments` on a non-null
workspace passes each child exactly the cumulative rounded offset pointer. -/
theorem to_underlying_arguments_eq_apply_at_offsets (ps : PS)
    (pairs : List (FusionOpHost PS A P × A)) :
    ∀ ws : Nat, ws ≠ 0 →
      to_underlying_arguments ps pairs ws = apply_at ps pairs (offsets ps pairs ws) := by
  induction pairs with
  | nil => intro ws _; rfl
  | cons oa rest ih =>
    intro ws h
    rw [to_underlying_arguments, offsets, apply_at, if_pos h, ih _ (by omega)]

theorem offsets_ge (ps : PS) (pairs : List (FusionOpHost PS A P × A)) :
    ∀ a : Nat, ∀ x ∈ offsets ps pairs a, a ≤ x := by
  induction pairs with
  | nil => intro a x hx; cases hx
  | cons oa rest ih =>
    intro a x hx
    rw [offsets, List.mem_cons] at hx
    rcases hx with rfl | hx
    · omega
    · have := ih _ x hx
      omega

theorem regions_disjoint (ps : PS) (pairs : List (FusionOpHost PS A P × A)) :
    ∀ a : Nat,
      List.Pairwise (fun x y => x.1 + x.2 ≤ y.1)
        ((offsets ps pairs a).zip (sizes ps pairs)) := by
  induction pairs with
  | nil => intro a; exact List.Pairwise.nil
  | cons oa rest ih =>
    intro a
    rw [offsets, sizes, List.map_cons, List.zip_cons_cons]
    refine List.Pairwise.cons ?_ ?_
    · intro y hy
      have h1 := offsets_ge ps rest
        (a + round_nearest (oa.1.get_workspace_size ps oa.2) MinWorkspaceAlignment)
        y.1 (List.of_mem_zip hy).1
      have h2 := le_round_nearest_align (oa.1.get_workspace_size ps oa.2)
      omega
    · exact ih _

theorem regions_within (ps : PS) (pairs : List (FusionOpHost PS A P × A)) :
    ∀ a : Nat, ∀ r ∈ (offsets ps pairs a).zip (sizes ps pairs),
      r.1 + r.2 ≤ a + get_workspace_size ps pairs := by
  induction pairs with
  | nil => intro a r hr; cases hr
  | cons oa rest ih =>
    intro a r hr
    rw [offsets, sizes, List.map_cons, List.zip_cons_cons, List.mem_cons] at hr
    rw [get_workspace_size_cons]
    rcases hr with rfl | hr
    · have h2 := le_round_nearest_align (oa.1.get_workspace_size ps oa.2)
      simp only []
      omega
    · have := ih _ r hr
      omega

theorem initialize_workspace_go_skip (ps : PS) (pairs : List (FusionOpHost PS A P × A)) :
    ∀ ws s i, s ≠ Status.kSuccess →
      initialize_workspace_go ps pairs ws s i = (s, []) := by
  induction pairs with
  | nil => intro ws s i _; rfl
  | cons oa rest ih =>
    intro ws s i h
    rw [initialize_workspace_go, if_pos h]
    exact ih _ _ _ h

theorem initialize_workspace_go_all_success (ps : PS)
    (pairs : List (FusionOpHost PS A P × A)) :
    ∀ ws i, (∀ s ∈ status_seq ps pairs ws, s = Status.kSuccess) →
      initialize_workspace_go ps pairs ws Status.kSuccess i =
        (Status.kSuccess, trace_all ps pairs ws i) := by
  induction pairs with
  | nil => intro ws i _; rfl
  | cons oa rest ih =>
    intro ws i h
    have h0 : oa.1.initialize_workspace ps oa.2 ws = Status.kSuccess := by
      apply h
      rw [status_seq]
      exact List.mem_cons_self _ _
    rw [initialize_workspace_go, if_neg (by simp), trace_all]
    simp only [h0]
    rw [ih _ _ (fun s hs => h s (by rw [status_seq]; exact List.mem_cons_of_mem _ hs))]

theorem initialize_workspace_go_first_failure (ps : PS)
    (pairs : List (FusionOpHost PS A P × A)) :
    ∀ ws i k, k < pairs.length →
      (∀ j, j < k → (status_seq ps pairs ws).getD j Status.kSuccess = Status.kSuccess) →
      (status_seq ps pairs ws).getD k Status.kSuccess ≠ Status.kSuccess →
      initialize_workspace_go ps pairs ws Status.kSuccess i =
        ((status_seq ps pairs ws).getD k Status.kSuccess,
          (trace_all ps pairs ws i).take (k + 1)) := by
  induction pairs with
  | nil =>
    intro ws i k hk
    exact absurd hk (by simp)
  | cons oa rest ih =>
    intro ws i k hk hpre hfail
    match k with
    | 0 =>
      have h0 : oa.1.initialize_workspace ps oa.2 ws ≠ Status.kSuccess := by
        simpa [status_seq] using hfail
      rw [initialize_workspace_go, if_neg (by simp)]
      simp only [status_seq, trace_all, List.getD_cons_zero, List.take_succ_cons,
        List.take_zero]
      rw [initialize_workspace_go_skip ps rest _ _ _ h0]
    | k + 1 =>
      have h0 : oa.1.initialize_workspace ps oa.2 ws = Status.kSuccess := by
        have := hpre 0 (by omega)
        simpa [status_seq] using this
      rw [initialize_workspace_go, if_neg (by simp)]
      simp only [h0]
      rw [status_seq, trace_all] at *
      simp only [List.getD_cons_succ] at hfail ⊢
      simp only [List.take_succ_cons]
      rw [ih _ _ k (by simpa using hk)
        (fun j hj => by simpa using hpre (j + 1) (by omega)) hfail]

end Sm90VisitorImplBase

/-- C2: against a buffer of exactly `get_workspace_size` bytes,
`to_underlying_arguments` hands every child a region inside the buffer, and
the children's regions are pairwise disjoint.  In the generic variadic form
each child receives the cumulative rounded offset pointer, the regions
(pointer, own workspace size) are pairwise disjoint, and every region ends at
or before `ws + get_workspace_size`.  In the three-operand specialization the
children receive the consecutive pointers `ws3`, `ws3 + s0`, `ws3 + s0 + s1`,
whose back-to-back regions are disjoint by construction and end at or before
`ws3 + get_workspace_size`. -/
theorem C2_workspace_regions_disjoint_and_in_bounds
    {PS A P A0 P0 A1 P1 A2 P2 : Type} (ps : PS)
    (pairs : List (FusionOpHost PS A P × A)) (ws : Nat) (hws : ws ≠ 0)
    (Op0 : FusionOpHost PS A0 P0) (Op1 : FusionOpHost PS A1 P1)
    (Op2 : FusionOpHost PS A2 P2) (args3 : Arguments3 A0 A1 A2) (ws3 : Nat) :
    (Sm90VisitorImplBase.to_underlying_arguments ps pairs ws =
      Sm90VisitorImplBase.apply_at ps pairs (Sm90VisitorImplBase.offsets ps pairs ws)) ∧
    List.Pairwise (fun x y => x.1 + x.2 ≤ y.1)
      ((Sm90VisitorImplBase.offsets ps pairs ws).zip (Sm90VisitorImplBase.sizes ps pairs)) ∧
    (∀ r ∈ (Sm90VisitorImplBase.offsets ps pairs ws).zip (Sm90VisitorImplBase.sizes ps pairs),
      r.1 + r.2 ≤ ws + Sm90VisitorImplBase.get_workspace_size ps pairs) ∧
    (Sm90VisitorImplBase3.to_underlying_arguments Op0 Op1 Op2 ps args3 ws3 =
      (Op0.to_underlying_arguments ps args3.op_0 ws3,
       Op1.to_underlying_arguments ps args3.op_1
         (ws3 + Op0.get_workspace_size ps args3.op_0),
       Op2.to_underlying_arguments ps args3.op_2
         (ws3 + Op0.get_workspace_size ps args3.op_0 +
           Op1.get_workspace_size ps args3.op_1))) ∧
    (ws3 + Op0.get_workspace_size ps args3.op_0 + Op1.get_workspace_size ps args3.op_1 +
        Op2.get_workspace_size ps args3.op_2 ≤
      ws3 + Sm90VisitorImplBase3.get_workspace_size Op0 Op1 Op2 ps args3) := by
  refine ⟨Sm90VisitorImplBase.to_underlying_arguments_eq_apply_at_offsets ps pairs ws hws,
    Sm90VisitorImplBase.regions_disjoint ps pairs ws,
    Sm90VisitorImplBase.regions_within ps pairs ws, rfl, ?_⟩
  rw [Sm90VisitorImplBase3.get_workspace_size]
  have h0 := le_round_nearest_align (0 + Op0.get_workspace_size ps args3.op_0)
  have h1 := le_round_nearest_align
    (round_nearest (0 + Op0.get_workspace_size ps args3.op_0) MinWorkspaceAlignment +
      Op1.get_workspace_size ps args3.op_1)
  have h2 := le_round_nearest_align
    (round_nearest
        (round_nearest (0 + Op0.get_workspace_size ps args3.op_0) MinWorkspaceAlignment +
          Op1.get_workspace_size ps args3.op_1) MinWorkspaceAlignment +
      Op2.get_workspace_size ps args3.op_2)
  omega

/-- Witness for C2: a concrete two-child generic tree with workspace sizes 8
and 24 against a buffer at base 1000, and a concrete three-operand tree with
sizes 8, 4, 32 at base 5000. -/
theorem C2_workspace_regions_witness :
    (1000 : Nat) ≠ 0 ∧
    ((Sm90VisitorImplBase.to_underlying_arguments ()
        [(testOp 8 Status.kSuccess, ()), (testOp 24 Status.kSuccess, ())] 1000 =
      Sm90VisitorImplBase.apply_at ()
        [(testOp 8 Status.kSuccess, ()), (testOp 24 Status.kSuccess, ())]
        (Sm90VisitorImplBase.offsets ()
          [(testOp 8 Status.kSuccess, ()), (testOp 24 Status.kSuccess, ())] 1000)) ∧
    List.Pairwise (fun x y => x.1 + x.2 ≤ y.1)
      ((Sm90VisitorImplBase.offsets ()
          [(testOp 8 Status.kSuccess, ()), (testOp 24 Status.kSuccess, ())] 1000).zip
        (Sm90VisitorImplBase.sizes ()
          [(testOp 8 Status.kSuccess, ()), (testOp 24 Status.kSuccess, ())])) ∧
    (∀ r ∈ (Sm90VisitorImplBase.offsets ()
          [(testOp 8 Status.kSuccess, ()), (testOp 24 Status.kSuccess, ())] 1000).zip
        (Sm90VisitorImplBase.sizes ()
          [(testOp 8 Status.kSuccess, ()), (testOp 24 Status.kSuccess, ())]),
      r.1 + r.2 ≤ 1000 + Sm90VisitorImplBase.get_workspace_size ()
        [(testOp 8 Status.kSuccess, ()), (testOp 24 Status.kSuccess, ())]) ∧
    (Sm90VisitorImplBase3.to_underlying_arguments (testOp 8 Status.kSuccess)
        (testOp 4 Status.kSuccess) (testOp 32 Status.kSuccess) () ⟨(), (), ()⟩ 5000 =
      ((testOp 8 Status.kSuccess).to_underlying_arguments () () 5000,
       (testOp 4 Status.kSuccess).to_underlying_arguments () ()
         (5000 + (testOp 8 Status.kSuccess).get_workspace_size () ()),
       (testOp 32 Status.kSuccess).to_underlying_arguments () ()
         (5000 + (testOp 8 Status.kSuccess).get_workspace_size () () +
           (testOp 4 Status.kSuccess).get_workspace_size () ()))) ∧
    (5000 + (testOp 8 Status.kSuccess).get_workspace_size () () +
        (testOp 4 Status.kSuccess).get_workspace_size () () +
        (testOp 32 Status.kSuccess).get_workspace_size () () ≤
      5000 + Sm90VisitorImplBase3.get_workspace_size (testOp 8 Status.kSuccess)
        (testOp 4 Status.kSuccess) (testOp 32 Status.kSuccess) () ⟨(), (), ()⟩)) :=
  ⟨by decide,
    C2_workspace_regions_disjoint_and_in_bounds () _ 1000 (by decide) _ _ _ ⟨(), (), ()⟩ 5000⟩

/-- C4: the composite `initialize_workspace` invokes the children's
`initialize_workspace` in declared node order at their cumulative workspace
pointers; if every child succeeds it returns `kSuccess` after invoking all of
them, and if some child is the first to return a non-success status, the
composite returns exactly that status and the call trace stops at that child
(children after it are never invoked, and nothing is rolled back).  The
three-operand specialization behaves identically to the generic form on a
non-null workspace. -/
theorem C4_initialize_workspace_fail_fast
    {PS A P : Type} (ps : PS) (pairs : List (FusionOpHost PS A P × A)) (ws : Nat)
    (Op0 Op1 Op2 : FusionOpHost PS A P) (a0 a1 a2 : A) (ws3 : Nat) (hws3 : ws3 ≠ 0) :
    ((∀ s ∈ Sm90VisitorImplBase.status_seq ps pairs ws, s = Status.kSuccess) →
      Sm90VisitorImplBase.initialize_workspace_run ps pairs ws =
        (Status.kSuccess, Sm90VisitorImplBase.trace_all ps pairs ws 0)) ∧
    (∀ k, k < pairs.length →
      (∀ j, j < k →
        (Sm90VisitorImplBase.status_seq ps pairs ws).getD j Status.kSuccess =
          Status.kSuccess) →
      (Sm90VisitorImplBase.status_seq ps pairs ws).getD k Status.kSuccess ≠
        Status.kSuccess →
      Sm90VisitorImplBase.initialize_workspace_run ps pairs ws =
        ((Sm90VisitorImplBase.status_seq ps pairs ws).getD k Status.kSuccess,
          (Sm90VisitorImplBase.trace_all ps pairs ws 0).take (k + 1))) ∧
    (Sm90VisitorImplBase3.initialize_workspace_run Op0 Op1 Op2 ps ⟨a0, a1, a2⟩ ws3 =
      Sm90VisitorImplBase.initialize_workspace_run ps
        [(Op0, a0), (Op1, a1), (Op2, a2)] ws3) := by
  refine ⟨fun h => Sm90VisitorImplBase.initialize_workspace_go_all_success ps pairs ws 0 h,
    fun k hk hpre hfail =>
      Sm90VisitorImplBase.initialize_workspace_go_first_failure ps pairs ws 0 k hk hpre hfail,
    ?_⟩
  have e1 : ∀ b : Nat,
      round_nearest (0 + b) MinWorkspaceAlignment =
        round_nearest b MinWorkspaceAlignment := by
    intro b
    rw [Nat.zero_add]
  by_cases h0 : Op0.initialize_workspace ps a0 ws3 = Status.kSuccess <;>
    by_cases h1 : Op1.initialize_workspace ps a1
      (ws3 + round_nearest (Op0.get_workspace_size ps a0) MinWorkspaceAlignment) =
        Status.kSuccess <;>
    simp [Sm90VisitorImplBase3.initialize_workspace_run,
      Sm90VisitorImplBase.initialize_workspace_run,
      Sm90VisitorImplBase.initialize_workspace_go, h0, h1, hws3, e1,
      round_nearest_align_add, Nat.add_assoc]

/-- Witness for C4: a two-child tree whose children both succeed (all invoked,
composite succeeds), a three-child tree whose middle child fails with
`kErrorInternal` (composite returns `kErrorInternal`, third child never
invoked), and a concrete three-operand specialization agreeing with the
generic form. -/
theorem C4_initialize_workspace_fail_fast_witness :
    ((∀ s ∈ Sm90VisitorImplBase.status_seq ()
        [(testOp 8 Status.kSuccess, ()), (testOp 24 Status.kSuccess, ())] 2000,
      s = Status.kSuccess) ∧
     Sm90VisitorImplBase.initialize_workspace_run ()
        [(testOp 8 Status.kSuccess, ()), (testOp 24 Status.kSuccess, ())] 2000 =
      (Status.kSuccess, [(0, 2000), (1, 2016)])) ∧
    ((1 : Nat) < 3 ∧
     (Sm90VisitorImplBase.status_seq ()
        [(testOp 8 Status.kSuccess, ()), (testOp 4 Status.kErrorInternal, ()),
          (testOp 32 Status.kSuccess, ())] 2000).getD 1 Status.kSuccess ≠
        Status.kSuccess ∧
     Sm90VisitorImplBase.initialize_workspace_run ()
        [(testOp 8 Status.kSuccess, ()), (testOp 4 Status.kErrorInternal, ()),
          (testOp 32 Status.kSuccess, ())] 2000 =
      (Status.kErrorInternal, [(0, 2000), (1, 2016)])) ∧
    (2000 : Nat) ≠ 0 ∧
    Sm90VisitorImplBase3.initialize_workspace_run (testOp 8 Status.kSuccess)
        (testOp 4 Status.kErrorInternal) (testOp 32 Status.kSuccess) () ⟨(), (), ()⟩ 2000 =
      Sm90VisitorImplBase.initialize_workspace_run ()
        [(testOp 8 Status.kSuccess, ()), (testOp 4 Status.kErrorInternal, ()),
          (testOp 32 Status.kSuccess, ())] 2000 :=
  ⟨⟨by decide,
    ((C4_initialize_workspace_fail_fast () _ 2000 (testOp 8 Status.kSuccess)
        (testOp 4 Status.kErrorInternal) (testOp 32 Status.kSuccess) () () () 2000
        (by decide)).1 (by decide)).trans (by decide)⟩,
   ⟨by decide, by decide,
    ((C4_initialize_workspace_fail_fast () _ 2000 (testOp 8 Status.kSuccess)
        (testOp 4 Status.kErrorInternal) (testOp 32 Status.kSuccess) () () () 2000
        (by decide)).2.1 1 (by decide) (by decide) (by decide)).trans (by decide)⟩,
   by decide,
   (C4_initialize_workspace_fail_fast () ([] : List (FusionOpHost Unit Unit Nat × Unit))
      2000 (testOp 8 Status.kSuccess) (testOp 4 Status.kErrorInternal)
      (testOp 32 Status.kSuccess) () () () 2000 (by decide)).2.2⟩

/-- C3: the composite `can_implement` is the logical conjunction of the
children's `can_implement` results, both in the generic variadic form of
`Sm90VisitorImplBase` and in the specialized four-operand form: the composite
returns `true` exactly when every child op's feasibility check passes on its
own sub-arguments. -/
theorem C3_can_implement_conjunction
    {PS A P A0 P0 A1 P1 A2 P2 A3 P3 : Type} (ps : PS)
    (pairs : List (FusionOpHost PS A P × A))
    (Op0 : FusionOpHost PS A0 P0) (Op1 : FusionOpHost PS A1 P1)
    (Op2 : FusionOpHost PS A2 P2) (Op3 : FusionOpHost PS A3 P3)
    (args : Arguments4 A0 A1 A2 A3) :
    (Sm90VisitorImplBase.can_implement ps pairs = true ↔
      ∀ oa ∈ pairs, oa.1.can_implement ps oa.2 = true) ∧
    (Sm90VisitorImplBase4.can_implement Op0 Op1 Op2 Op3 ps args = true ↔
      (Op0.can_implement ps args.op_0 = true ∧ Op1.can_implement ps args.op_1 = true ∧
       Op2.can_implement ps args.op_2 = true ∧ Op3.can_implement ps args.op_3 = true)) := by
  constructor
  · rw [Sm90VisitorImplBase.can_implement, foldl_and_eq]
    simp [List.all_eq_true]
  · simp [Sm90VisitorImplBase4.can_implement, and_assoc]

/-- C5: the composite runtime queries are logical ORs across the children:
`Sm90VisitorImpl::is_producer_load_needed` is `true` iff some child op's
`is_producer_load_needed` is `true`, and `Sm90VisitorImpl::is_C_load_needed`
is `true` iff some child op's `is_C_load_needed` is `true`. -/
theorem C5_runtime_queries_are_or (ops : List FusionOpDevice) :
    (Sm90VisitorImpl.is_producer_load_needed ops = true ↔
      ∃ op ∈ ops, op.is_producer_load_needed = true) ∧
    (Sm90VisitorImpl.is_C_load_needed ops = true ↔
      ∃ op ∈ ops, op.is_C_load_needed = true) := by
  constructor
  · rw [Sm90VisitorImpl.is_producer_load_needed, foldl_or_eq]
    simp [List.any_eq_true]
  · rw [Sm90VisitorImpl.is_C_load_needed, foldl_or_eq]
    simp [List.any_eq_true]

/-- C9 counterexample: a one-child tree whose child records the workspace
pointer it is handed in its Params (as the repository's reduction ops do).
Both buffers have exactly `get_workspace_size = 16` bytes, but bases 32 and 64
produce Params `[32]` and `[64]`, which are not element-wise equal. -/
theorem C9_two_buffers_params_differ :
    Sm90VisitorImplBase.get_workspace_size () [(testOp 16 Status.kSuccess, ())] = 16 ∧
    Sm90VisitorImplBase.to_underlying_arguments ()
        [(testOp 16 Status.kSuccess, ())] 32 ≠
      Sm90VisitorImplBase.to_underlying_arguments ()
        [(testOp 16 Status.kSuccess, ())] 64 := by
  decide

/-- C9 (amended): `to_underlying_arguments` is a deterministic pure function
of problem shape, Arguments and buffer base — identical inputs always produce
identical Params — and two calls against buffers at different bases produce
element-wise equal Params provided no child op records the workspace pointer
value in its Params (each child's `to_underlying_arguments` independent of
the pointer argument); children that do record their pointer receive it at
the same offset from the buffer base in both calls, so their Params differ
exactly by the buffer base. -/
theorem C9_deterministic_params {PS A P : Type} (ps : PS)
    (pairs : List (FusionOpHost PS A P × A)) :
    ∀ ws1 ws2 : Nat,
      (∀ oa ∈ pairs, ∀ p q : Nat,
        oa.1.to_underlying_arguments ps oa.2 p = oa.1.to_underlying_arguments ps oa.2 q) →
      Sm90VisitorImplBase.to_underlying_arguments ps pairs ws1 =
        Sm90VisitorImplBase.to_underlying_arguments ps pairs ws2 := by
  induction pairs with
  | nil => intro _ _ _; rfl
  | cons oa rest ih =>
    intro ws1 ws2 h
    rw [Sm90VisitorImplBase.to_underlying_arguments,
      Sm90VisitorImplBase.to_underlying_arguments,
      h oa (List.mem_cons_self _ _) ws1 ws2]
    congr 1
    exact ih _ _ (fun oa' hmem p q => h oa' (List.mem_cons_of_mem _ hmem) p q)

/-- Witness for C9 (amended) at a concrete pointer-independent child. -/
theorem C9_deterministic_params_witness :
    (∀ oa ∈ [(pureOp 16 7, ())], ∀ p q : Nat,
      oa.1.to_underlying_arguments () oa.2 p = oa.1.to_underlying_arguments () oa.2 q) ∧
    Sm90VisitorImplBase.to_underlying_arguments () [(pureOp 16 7, ())] 32 =
      Sm90VisitorImplBase.to_underlying_arguments () [(pureOp 16 7, ())] 64 :=
  ⟨by
    intro oa hmem p q
    simp only [List.mem_singleton] at hmem
    subst hmem
    rfl,
   C9_deterministic_params () [(pureOp 16 7, ())] 32 64 (by
    intro oa hmem p q
    simp only [List.mem_singleton] at hmem
    subst hmem
    rfl)⟩

/-- C1 (the layout discrepancy, evaluated on the code): in the two-operand
specialization `Sm90VisitorImplBase<Op0,Op1>` with Op0 workspace size 8 (not
a multiple of the 16-byte alignment), `to_underlying_arguments` hands Op1 the
pointer base+8, while `get_workspace_size` reserves the aligned region
base..base+16 for Op0 and `initialize_workspace` invokes Op1 at base+16: the
specialized `to_underlying_arguments` does not round Op0's size, so the three
entry points disagree, whereas the generic variadic form hands Op1 base+16
exactly as the claim states. -/
theorem C1_base2_layout_discrepancy :
    Sm90VisitorImplBase2.to_underlying_arguments (testOp 8 Status.kSuccess)
        (testOp 24 Status.kSuccess) () ⟨(), ()⟩ 1000 = (1000, 1008) ∧
    Sm90VisitorImplBase2.get_workspace_size (testOp 8 Status.kSuccess)
        (testOp 24 Status.kSuccess) () ⟨(), ()⟩ = 48 ∧
    Sm90VisitorImplBase2.initialize_workspace_run (testOp 8 Status.kSuccess)
        (testOp 24 Status.kSuccess) () ⟨(), ()⟩ 1000 =
      (Status.kSuccess, [(0, 1000), (1, 1016)]) ∧
    Sm90VisitorImplBase.to_underlying_arguments ()
        [(testOp 8 Status.kSuccess, ()), (testOp 24 Status.kSuccess, ())] 1000 =
      [1000, 1016] ∧
    (1008 : Nat) ≠ 1016 := by
  decide

/-- C10: the OR-composition of the runtime queries preserves the per-op
invariant "C load needed implies producer load needed": if every child op
satisfies it, then whenever the composite `is_C_load_needed` is `true`, the
composite `is_producer_load_needed` is also `true`. -/
theorem C10_or_preserves_C_load_invariant (ops : List FusionOpDevice)
    (h : ∀ op ∈ ops, op.is_C_load_needed = true → op.is_producer_load_needed = true)
    (hC : Sm90VisitorImpl.is_C_load_needed ops = true) :
    Sm90VisitorImpl.is_producer_load_needed ops = true := by
  rw [Sm90VisitorImpl.is_C_load_needed, foldl_or_eq] at hC
  rw [Sm90VisitorImpl.is_producer_load_needed, foldl_or_eq]
  simp only [Bool.false_or, List.any_eq_true] at hC ⊢
  obtain ⟨op, hmem, hop⟩ := hC
  exact ⟨op, hmem, h op hmem hop⟩

/-- Witness for C10 at a concrete two-op tree. -/
theorem C10_or_preserves_C_load_invariant_witness :
    (∀ op ∈ [FusionOpDevice.mk true false, FusionOpDevice.mk true true],
      op.is_C_load_needed = true → op.is_producer_load_needed = true) ∧
    Sm90VisitorImpl.is_C_load_needed
      [FusionOpDevice.mk true false, FusionOpDevice.mk true true] = true ∧
    Sm90VisitorImpl.is_producer_load_needed
      [FusionOpDevice.mk true false, FusionOpDevice.mk true true] = true :=
  ⟨by decide, by decide,
    C10_or_preserves_C_load_invariant _ (by decide) (by decide)⟩

theorem visitChildren_logged {Acc Frag : Type}
    (g : Nat → Acc → Int → Int → Int → Frag) (acc : Acc) (v m n : Int) :
    ∀ (idxs : List Nat) (s : List (TreeEv Acc Frag)),
      Sm90TreeVisitor.visitChildren acc v m n
          (idxs.map (fun i => loggedChild i (g i))) s =
        (idxs.map (fun i => g i acc v m n),
         s ++ idxs.map (fun i => TreeEv.childCall i acc (g i acc v m n))) := by
  intro idxs
  induction idxs with
  | nil => intro s; simp [Sm90TreeVisitor.visitChildren]
  | cons i is ih =>
    intro s
    simp [Sm90TreeVisitor.visitChildren, loggedChild, ih]

/-- C6: `Sm90TreeVisitor`'s composite visit evaluates the child callbacks
first, in declared child order, each invoked once on exactly the accumulator
fragment and the epilogue coordinates with no extra inputs, and then returns
the node op's visit applied to the accumulator fragment together with the
children's just-computed output fragments: for arbitrary pure child functions
`g i` and node function `h`, the call log is the children's calls in order
`0..k-1` followed by the node call on the children's outputs, and the result
is the node's value. -/
theorem C6_tree_visit_children_then_node {Acc Frag : Type}
    (k : Nat) (g : Nat → Acc → Int → Int → Int → Frag)
    (h : Acc → Int → Int → Int → List Frag → Frag)
    (frg_acc : Acc) (epi_v epi_m epi_n : Int) :
    Sm90TreeVisitor.visit
        ((List.range k).map (fun i => loggedChild i (g i))) (loggedNode h)
        frg_acc epi_v epi_m epi_n [] =
      (h frg_acc epi_v epi_m epi_n
         ((List.range k).map (fun i => g i frg_acc epi_v epi_m epi_n)),
       ((List.range k).map (fun i =>
           TreeEv.childCall i frg_acc (g i frg_acc epi_v epi_m epi_n))) ++
         [TreeEv.nodeCall frg_acc
           ((List.range k).map (fun i => g i frg_acc epi_v epi_m epi_n))
           (h frg_acc epi_v epi_m epi_n
             ((List.range k).map (fun i => g i frg_acc epi_v epi_m epi_n)))]) := by
  rw [Sm90TreeVisitor.visit, visitChildren_logged]
  simp [loggedNode]

theorem visitAuxOutTrees_logged {Acc Frag : Type}
    (g : Nat → Frag → Int → Int → Int → Frag) (f : Frag) (v m n : Int) :
    ∀ (idxs : List Nat) (s : List (SplitEv Acc Frag)),
      Sm90SplitTreeVisitor.visitAuxOutTrees f v m n
          (idxs.map (fun i => loggedAuxTree i (g i))) s =
        s ++ idxs.map (fun i => SplitEv.auxCall i f (g i f v m n)) := by
  intro idxs
  induction idxs with
  | nil => intro s; simp [Sm90SplitTreeVisitor.visitAuxOutTrees]
  | cons i is ih =>
    intro s
    simp [Sm90SplitTreeVisitor.visitAuxOutTrees, loggedAuxTree, ih]

/-- C7: `Sm90SplitTreeVisitor`'s composite visit evaluates the input tree
exactly once on the accumulator fragment (the call log contains a single
input-tree call), fans its output fragment out unmodified to every aux output
tree and to the designated output tree (all of them receive the same computed
fragment as their input), and returns the output tree's result. -/
theorem C7_split_visit_fans_out_input {Acc Frag : Type}
    (gIn : Acc → Int → Int → Int → Frag) (k : Nat)
    (gAux : Nat → Frag → Int → Int → Int → Frag)
    (gOut : Frag → Int → Int → Int → Frag)
    (frg_acc : Acc) (epi_v epi_m epi_n : Int) :
    Sm90SplitTreeVisitor.visit (loggedInputTree gIn)
        ((List.range k).map (fun i => loggedAuxTree i (gAux i)))
        (loggedMainTree gOut) frg_acc epi_v epi_m epi_n [] =
      (gOut (gIn frg_acc epi_v epi_m epi_n) epi_v epi_m epi_n,
       SplitEv.inputCall frg_acc (gIn frg_acc epi_v epi_m epi_n) ::
         (((List.range k).map (fun i =>
             SplitEv.auxCall i (gIn frg_acc epi_v epi_m epi_n)
               (gAux i (gIn frg_acc epi_v epi_m epi_n) epi_v epi_m epi_n))) ++
          [SplitEv.mainCall (gIn frg_acc epi_v epi_m epi_n)
             (gOut (gIn frg_acc epi_v epi_m epi_n) epi_v epi_m epi_n)])) := by
  rw [Sm90SplitTreeVisitor.visit]
  simp only [loggedInputTree]
  rw [visitAuxOutTrees_logged]
  simp [loggedMainTree]

theorem getD_append_replicate {α : Type} (prev : List α) (k j : Nat) (d : α) :
    (prev ++ List.replicate k d).getD j d = prev.getD j d := by
  rcases Nat.lt_or_ge j prev.length with hj | hj
  · exact List.getD_append _ _ _ _ hj
  · rw [List.getD_append_right _ _ _ _ hj, List.getD_eq_default _ _ hj]
    rcases Nat.lt_or_ge (j - prev.length) k with hk | hk
    · rw [List.getD_eq_getElem _ _ (by simpa using hk), List.getElem_replicate]
    · exact List.getD_eq_default _ _ (by simpa using hk)

theorem visitFold_eq_topoVals {Acc CFrag RFrag : Type}
    (frg_acc : Acc) (epi_v epi_m epi_n : Int) (dflt : CFrag) :
    ∀ (eos : List (List Nat × TopoOp Acc CFrag RFrag)) (prev : List CFrag),
      Sm90TopologicalVisitor.visitFold frg_acc epi_v epi_m epi_n dflt eos
          (prev ++ List.replicate eos.length dflt) prev.length =
        eos.foldl
          (fun p eo =>
            p ++ [eo.2.convert_output
              (eo.2.visit frg_acc epi_v epi_m epi_n
                (eo.1.map (fun j => p.getD j dflt)))])
          prev := by
  intro eos
  induction eos with
  | nil =>
    intro prev
    simp [Sm90TopologicalVisitor.visitFold]
  | cons eo rest ih =>
    intro prev
    have hsel : ∀ j : Nat,
        (prev ++ List.replicate (rest.length + 1) dflt).getD j dflt = prev.getD j dflt :=
      fun j => getD_append_replicate prev (rest.length + 1) j dflt
    have hset : ∀ x : CFrag,
        (prev ++ List.replicate (rest.length + 1) dflt).set prev.length x =
          (prev ++ [x]) ++ List.replicate rest.length dflt := by
      intro x
      rw [List.set_append_right _ _ (Nat.le_refl _), Nat.sub_self, List.replicate_succ,
        List.set_cons_zero]
      simp
    rw [Sm90TopologicalVisitor.visitFold, List.foldl_cons]
    simp only [List.length_cons, hsel]
    generalize eo.2.convert_output
      (eo.2.visit frg_acc epi_v epi_m epi_n (eo.1.map fun j => prev.getD j dflt)) = x
    rw [hset x, show prev.length + 1 = (prev ++ [x]).length by simp]
    exact ih (prev ++ [x])

theorem topoVals_length {Acc CFrag RFrag : Type}
    (frg_acc : Acc) (epi_v epi_m epi_n : Int) (dflt : CFrag)
    (edgeOps : List (List Nat × TopoOp Acc CFrag RFrag)) :
    (Sm90TopologicalVisitor.topoVals frg_acc epi_v epi_m epi_n dflt edgeOps).length =
      edgeOps.length := by
  rw [Sm90TopologicalVisitor.topoVals]
  suffices h : ∀ (eos : List (List Nat × TopoOp Acc CFrag RFrag)) (prev : List CFrag),
      (eos.foldl
        (fun p eo =>
          p ++ [eo.2.convert_output
            (eo.2.visit frg_acc epi_v epi_m epi_n
              (eo.1.map (fun j => p.getD j dflt)))])
        prev).length = prev.length + eos.length by
    simpa using h edgeOps []
  intro eos
  induction eos with
  | nil => intro prev; simp
  | cons eo rest ih =>
    intro prev
    rw [List.foldl_cons, ih]
    simp
    omega

/-- C8: `Sm90TopologicalVisitor`'s composite visit computes, for the first
R-1 ops in the caller-supplied topological order, the left-to-right valuation
`topoVals` in which each op's inputs are the previously computed output
fragments selected by its own edge-index sequence of `EdgeTuple` and each
output is converted to the shared `ElementCompute` fragment type before later
ops consume it; the returned value is the final op's visit applied to the
accumulator fragment and the valuation entries selected by the final edge
sequence.  One intermediate fragment is produced per non-final op. -/
theorem C8_topological_visit_dataflow {Acc CFrag RFrag OFrag : Type}
    (edgeOps : List (List Nat × TopoOp Acc CFrag RFrag)) (edgeLast : List Nat)
    (node : Acc → Int → Int → Int → List CFrag → OFrag) (dflt : CFrag)
    (frg_acc : Acc) (epi_v epi_m epi_n : Int) :
    Sm90TopologicalVisitor.visit edgeOps edgeLast node dflt frg_acc epi_v epi_m epi_n =
      node frg_acc epi_v epi_m epi_n
        (edgeLast.map (fun j =>
          (Sm90TopologicalVisitor.topoVals frg_acc epi_v epi_m epi_n dflt
            edgeOps).getD j dflt)) ∧
    (Sm90TopologicalVisitor.topoVals frg_acc epi_v epi_m epi_n dflt edgeOps).length =
      edgeOps.length := by
  refine ⟨?_, topoVals_length frg_acc epi_v epi_m epi_n dflt edgeOps⟩
  rw [Sm90TopologicalVisitor.visit]
  have h := visitFold_eq_topoVals frg_acc epi_v epi_m epi_n dflt edgeOps []
  simp only [List.nil_append, List.length_nil] at h
  rw [h]
  rfl

end CutlassFusion
